import Mathlib

/-!
Formal models of the github-sentry-bot error-analysis and fix-application
pipeline, together with theorems settling the specification claims.

Sources embedded here:
- src/src/services/enhancedErrorAnalysisService.js (enhanced pipeline)
- src/src/services/errorAnalysisService.js (base pipeline)
- src/src/utils/contextBuilder.js (context assembly)
- src/index.js, parseSentryDetails (event location)
- src/unnamed/part_000 (earlier generation of the base service)

JavaScript strings are modelled as Lean String or List Char; JS numbers used
as line indices are modelled as Int or Nat with the same clamping as the
source; JS number truthiness (0 and undefined falsy) and string truthiness
(empty and undefined falsy) are modelled explicitly.  Filesystem reads are
modelled as explicit inputs (an Except for fallible reads); the line-diff
dependency (the npm diff package, not part of this repository) is modelled
from the spec as a minimal line edit script, see diffF below.
-/

/-- JS whitespace class \s restricted to the characters relevant here
(space, tab, newline, carriage return, vertical tab, form feed). -/
def isJsWs (c : Char) : Bool :=
  c == ' ' || c == '\t' || c == '\n' || c == '\r' || c == '\x0b' || c == '\x0c'

/-- JS String.prototype.trim on a list of characters. -/
def jsTrimL (l : List Char) : List Char :=
  ((l.dropWhile isJsWs).reverse.dropWhile isJsWs).reverse

/-- JS String.prototype.trim. -/
def jsTrim (s : String) : String :=
  String.mk (jsTrimL s.toList)

/-- Does l start with p (computable prefix test). -/
def startsWithL : List Char → List Char → Bool
  | _, [] => true
  | [], _ :: _ => false
  | c :: cs, p :: ps => c == p && startsWithL cs ps

/-- Does p occur as a contiguous substring of l. -/
def hasSub : List Char → List Char → Bool
  | [], p => p.isEmpty
  | c :: t, p => startsWithL (c :: t) p || hasSub t p

/-- JS s.includes(sub): substring containment. -/
def jsIncludes (s sub : String) : Bool :=
  hasSub s.toList sub.toList

/-- JS s.replace(/\s/g, ""): remove every whitespace character. -/
def stripJsWs (s : String) : String :=
  String.mk (s.toList.filter (fun c => !(isJsWs c)))

/-- JS s.split("\n"), accumulator form. -/
def splitNlAux : List Char → List Char → List String
  | [], acc => [String.mk acc.reverse]
  | '\n' :: t, acc => String.mk acc.reverse :: splitNlAux t []
  | c :: t, acc => splitNlAux t (c :: acc)

/-- JS s.split("\n"): split on every newline, keeping empty pieces. -/
def jsSplitNl (s : String) : List String :=
  splitNlAux s.toList []

/-- JS array.join("\n"). -/
def joinNl : List String → String
  | [] => ""
  | [s] => s
  | s :: t => s ++ "\n" ++ joinNl t

/-- One component of a line diff: value plus added/removed flags, as produced
by the external diff library (diff.diffLines).  Modelled from the spec: the
spec describes a line-oriented diff whose hunks carry added/removed flags and
the changed text. -/
structure Hunk where
  added : Bool
  removed : Bool
  value : String
deriving DecidableEq, Repr

/-- Length of a longest common subsequence of two line lists (fuelled so the
definition is structurally recursive and computable by the kernel). -/
def lcsF : Nat → List String → List String → Nat
  | 0, _, _ => 0
  | _ + 1, [], _ => 0
  | _ + 1, _, [] => 0
  | f + 1, a :: as, b :: bs =>
    if a = b then lcsF f as bs + 1
    else max (lcsF f as (b :: bs)) (lcsF f (a :: as) bs)

/-- Minimal line edit script between two line lists.  Modelled from the spec:
the external diff library computes a line-oriented diff; removals and
additions are emitted one line per hunk, which is equivalent for the
meaningful-change predicate (a merged hunk has non-whitespace content iff one
of its lines does). -/
def diffF : Nat → List String → List String → List Hunk
  | 0, _, _ => []
  | _ + 1, [], bs => bs.map (fun b => ⟨true, false, b⟩)
  | _ + 1, as, [] => as.map (fun a => ⟨false, true, a⟩)
  | f + 1, a :: as, b :: bs =>
    if a = b then ⟨false, false, a⟩ :: diffF f as bs
    else if lcsF f as (b :: bs) ≥ lcsF f (a :: as) bs then
      ⟨false, true, a⟩ :: diffF f as (b :: bs)
    else
      ⟨true, false, b⟩ :: diffF f (a :: as) bs

/-- diff.diffLines(a, b): line diff of two strings. -/
def diffLines (a b : String) : List Hunk :=
  let la := jsSplitNl a
  let lb := jsSplitNl b
  diffF (la.length + lb.length) la lb

/-- The meaningful-change predicate of the change gate
(enhancedErrorAnalysisService.js lines 410-414 and part_000 lines 148-152):
some added or removed hunk whose value has non-whitespace content. -/
def hasMeaningfulChange (original fixCode : String) : Bool :=
  (diffLines original fixCode).any
    (fun ch => (ch.added || ch.removed) && (stripJsWs ch.value).length > 0)

/-- A candidate fix as consumed by applyFix: code text, confidence score and
an optional known error line. -/
structure FixCand where
  code : String
  confidence : ℚ
  errorLine : Option Nat
deriving DecidableEq, Repr

/-- JS `fix.errorLine || 1` (0 and undefined are falsy). -/
def effErrorLine (e : Option Nat) : Int :=
  match e with
  | some n => if n = 0 then 1 else (n : Int)
  | none => 1

/-- enhancedErrorAnalysisService.applyFix line 403:
startLine = Math.max(0, errorLine - 5). -/
def enhStartLine (errorLine : Int) : Int :=
  max 0 (errorLine - 5)

/-- enhancedErrorAnalysisService.applyFix line 404:
endLine = Math.min(lines.length, errorLine + 5). -/
def enhEndLine (len errorLine : Int) : Int :=
  min len (errorLine + 5)

/-- lines.slice(startLine, endLine).join("\n") for the already-clamped
bounds of the enhanced pipeline window. -/
def enhOriginalBlock (lines : List String) (errorLine : Int) : String :=
  let s := (enhStartLine errorLine).toNat
  let e := (enhEndLine (lines.length : Int) errorLine).toNat
  joinNl ((lines.drop s).take (e - s))

/-- Result object of the enhanced applyFix.  newContent records the content
written on success (fs.writeFileSync is modelled as returning the new file
content). -/
structure EnhResult where
  success : Bool
  reason : Option String
  location : Option (Nat × Nat)
  conf : Option ℚ
  newContent : Option String
deriving DecidableEq, Repr

/-- enhancedErrorAnalysisService.applyFix (lines 392-448).  The file read is
an explicit input: Except.error models a thrown I/O error reaching the catch
block. -/
def applyFixEnhanced (readResult : Except String String) (fix : FixCand) : EnhResult :=
  match readResult with
  | .error msg => ⟨false, some msg, none, none, none⟩
  | .ok content =>
    let lines := jsSplitNl content
    let errorLine := effErrorLine fix.errorLine
    let startLine := enhStartLine errorLine
    let endLine := enhEndLine (lines.length : Int) errorLine
    let originalBlock := enhOriginalBlock lines errorLine
    let meaningful := hasMeaningfulChange originalBlock fix.code
    if meaningful && decide (fix.confidence > 0.6) then
      let newLines :=
        (lines.take startLine.toNat) ++ jsSplitNl fix.code ++ lines.drop endLine.toNat
      ⟨true, none, some (startLine.toNat, endLine.toNat), some fix.confidence,
        some (joinNl newLines)⟩
    else
      ⟨false,
        some (if fix.confidence ≤ 0.6 then "Low confidence"
              else "No meaningful changes detected"),
        none, none, none⟩

/-- part_000 applyFix (lines 127-184): the earlier generation of the change
gate, which applies on a meaningful change alone (no confidence check). -/
def applyFixPart000 (readResult : Except String String) (fix : FixCand) : EnhResult :=
  match readResult with
  | .error msg => ⟨false, some msg, none, none, none⟩
  | .ok content =>
    let lines := jsSplitNl content
    let errorLine := effErrorLine fix.errorLine
    let startLine := enhStartLine errorLine
    let endLine := enhEndLine (lines.length : Int) errorLine
    let originalBlock := enhOriginalBlock lines errorLine
    if hasMeaningfulChange originalBlock fix.code then
      let newLines :=
        (lines.take startLine.toNat) ++ jsSplitNl fix.code ++ lines.drop endLine.toNat
      ⟨true, none, some (startLine.toNat, endLine.toNat), none,
        some (joinNl newLines)⟩
    else
      ⟨false, some "No meaningful changes detected", none, none, none⟩

/-- enhancedErrorAnalysisService.calculateConfidence (lines 215-226): base
0.5, additive indicators, capped at 0.95. -/
def calculateConfidence (response fixCode : String) : ℚ :=
  let c0 : ℚ := 0.5
  let c1 := if fixCode ≠ "" && decide (fixCode.length > 10) then c0 + 0.2 else c0
  let c2 := if jsIncludes response "Root Cause Analysis" then c1 + 0.1 else c1
  let c3 := if jsIncludes response "Safety Considerations" then c2 + 0.1 else c2
  let c4 := if jsIncludes response "error handling" then c3 + 0.1 else c3
  let c5 := if jsIncludes response "try" && jsIncludes response "catch" then c4 + 0.1 else c4
  min c5 0.95

/-- Splits a character list at the first occurrence of three consecutive
backticks, returning the part before and the part after the delimiter.
Models the scanning of the global regex in
errorAnalysisService.extractCodeBlocks (line 165). -/
def findTripleTick : List Char → Option (List Char × List Char)
  | [] => none
  | c :: rest =>
    if startsWithL (c :: rest) ['\x60', '\x60', '\x60'] then
      some ([], (c :: rest).drop 3)
    else
      match findTripleTick rest with
      | none => none
      | some (pre, post) => some (c :: pre, post)

/-- The regex class [a-z]. -/
def isLowerAlpha (c : Char) : Bool :=
  'a' ≤ c && c ≤ 'z'

/-- The optional language tag group (?:[a-z]*\n)? after an opening fence:
consume a lowercase run followed by a newline, or nothing. -/
def dropLangTag (s : List Char) : List Char :=
  match s.drop (s.takeWhile isLowerAlpha).length with
  | '\n' :: rest => rest
  | _ => s

/-- The exec loop of errorAnalysisService.extractCodeBlocks (lines 165-171):
repeatedly find an opening fence, drop the optional language tag, take the
lazily-matched content up to the next fence, trim it, and continue after the
closing fence (fuelled; one fuel unit per extracted block). -/
def exCore : Nat → List Char → List (List Char)
  | 0, _ => []
  | f + 1, s =>
    match findTripleTick s with
    | none => []
    | some (_, r1) =>
      match findTripleTick (dropLangTag r1) with
      | none => []
      | some (content, r3) => jsTrimL content :: exCore f r3

/-- errorAnalysisService.extractCodeBlocks (lines 163-179): all fenced blocks
trimmed; if none, the whole trimmed input as a single block. -/
def extractCodeBlocks (code : String) : List String :=
  if ((exCore code.toList.length code.toList).map String.mk).isEmpty then [jsTrim code]
  else (exCore code.toList.length code.toList).map String.mk

/-- The location object returned by findFixLocation. -/
structure FixLocation where
  startLine : Nat
  endLine : Nat
  context : List String
deriving DecidableEq, Repr

/-- The per-line match test of the fuzzy search
(errorAnalysisService.js line 215): the file line contains the search line,
or the search line contains the trimmed file line. -/
def fuzzyPred (needle : String) (line : String) : Bool :=
  jsIncludes line needle || jsIncludes needle (jsTrim line)

/-- The top-to-bottom for loop of lines 214-223: index of the first line
satisfying the predicate. -/
def firstMatchIdx (p : String → Bool) : List String → Option Nat
  | [] => none
  | x :: t => if p x then some 0 else (firstMatchIdx p t).map (· + 1)

/-- errorAnalysisService.findFixLocation (lines 181-228).  With an in-range
known error line, a fixed window around it; otherwise a scan for the first
line matching the first non-empty line of the first extracted block, with a
window around the 0-based match index; otherwise null. -/
def findFixLocation (fix : FixCand) (lines : List String) : Option FixLocation :=
  let errorLine := fix.errorLine.getD 0
  if 0 < errorLine ∧ errorLine ≤ lines.length then
    some ⟨max 1 (errorLine - 2), min lines.length (errorLine + 2),
      (lines.drop (errorLine - 2)).take (min lines.length (errorLine + 2) - (errorLine - 2))⟩
  else
    match extractCodeBlocks fix.code with
    | [] => none
    | firstBlock :: _ =>
      if firstBlock = "" then none
      else
        match (jsSplitNl firstBlock).filter (fun l => (jsTrim l).length > 0) with
        | [] => none
        | s0 :: _ =>
          let needle := jsTrim s0
          match firstMatchIdx (fuzzyPred needle) lines with
          | none => none
          | some i =>
            some ⟨max 1 (i - 2), min lines.length (i + 2),
              (lines.drop (i - 2)).take (min lines.length (i + 2) - (i - 2))⟩

/-- errorAnalysisService.applyCodeFix (lines 230-258): splice the first block
into the located range (start-1, deleteCount = end-start+1).  The JS catch
branch returning null is unreachable in the pure model but kept as the empty
case. -/
def applyCodeFix (lines codeBlocks : List String) (loc : FixLocation) : Option (List String) :=
  match codeBlocks with
  | [] => none
  | firstBlock :: _ =>
    let blockLines := jsSplitNl firstBlock
    let delCount := (max 0 ((loc.endLine : Int) - (loc.startLine : Int) + 1)).toNat
    some ((lines.take (loc.startLine - 1)) ++ blockLines
      ++ lines.drop (loc.startLine - 1 + delCount))

/-- Modelled from the spec: the external diff library createPatch used by
errorAnalysisService.generateDiff (lines 260-269), represented as a simple
rendering of the line diff; only its presence in the result matters to any
claim. -/
def generateDiff (oldContent newContent : String) : String :=
  joinNl ((diffLines oldContent newContent).map (fun h =>
    (if h.added then "+" else if h.removed then "-" else " ") ++ h.value))

/-- A single apostrophe as a string, used in issue messages. -/
def sqs : String :=
  String.singleton (Char.ofNat 39)

/-- List drop-while over whitespace: the \s* of the heuristic regexes. -/
def skipWsL (l : List Char) : List Char :=
  l.dropWhile isJsWs

/-- The regex class \w. -/
def isWordChar (c : Char) : Bool :=
  c.isAlphanum || c == '_'

/-- The pattern list of errorAnalysisService.isLikelyValidClosingBracket
(lines 490-527), evaluated on the suffix following a ')' inside the context
slice.  Every pattern starts with a literal close paren; subsumed patterns
are kept for fidelity. -/
def closeParenPatterns (s : List Char) : Bool :=
  let t := skipWsL s
  (match t with
   | [] => true
   | ';' :: t2 => (skipWsL t2).isEmpty
   | _ => false) ||
  (match t with
   | '.' :: t2 =>
     (match skipWsL t2 with
      | c :: _ => isWordChar c
      | [] => false)
   | _ => false) ||
  (match t with
   | ',' :: t2 =>
     (match skipWsL t2 with
      | c :: _ => isWordChar c
      | [] => false)
   | _ => false) ||
  startsWithL t ['=', '>'] ||
  startsWithL t ['\x7b'] ||
  startsWithL t ['?'] ||
  startsWithL t ['&', '&'] ||
  startsWithL t ['|', '|'] ||
  startsWithL t ['+'] ||
  startsWithL t ['-'] ||
  startsWithL t ['*'] ||
  startsWithL t ['/'] ||
  startsWithL t ['%'] ||
  startsWithL t ['=', '=', '='] ||
  startsWithL t ['!', '=', '='] ||
  startsWithL t ['=', '='] ||
  startsWithL t ['!', '='] ||
  startsWithL t ['<'] ||
  startsWithL t ['>'] ||
  startsWithL t ['<', '='] ||
  startsWithL t ['>', '='] ||
  startsWithL t ['['] ||
  startsWithL t [']'] ||
  startsWithL t ['\x60'] ||
  startsWithL t ['"'] ||
  startsWithL t [Char.ofNat 39] ||
  startsWithL t ['/', '/'] ||
  startsWithL t ['/', '*'] ||
  startsWithL t ['*', '/'] ||
  (s.takeWhile isJsWs).contains '\n'

/-- Scan a context for any close paren followed by one of the heuristic
patterns. -/
def anyParenSuffix : List Char → Bool
  | [] => false
  | ')' :: rest => closeParenPatterns rest || anyParenSuffix rest
  | _ :: rest => anyParenSuffix rest

/-- errorAnalysisService.isLikelyValidClosingBracket (lines 490-527); the
bracket argument is unused in the source as every pattern mentions only a
close paren. -/
def isLikelyValidClosingBracket (context : List Char) (bracket : Char) : Bool :=
  anyParenSuffix context ∨ (bracket ≠ bracket)

/-- errorAnalysisService.isLikelyValidBracketMismatch patterns
(lines 529-542): an open bracket followed, modulo whitespace, by a different
open bracket. -/
def anyMismatchPat : List Char → Bool
  | [] => false
  | c :: rest =>
    (c == '\x7b' && (startsWithL (skipWsL rest) ['['] || startsWithL (skipWsL rest) ['('])) ||
    (c == '[' && (startsWithL (skipWsL rest) ['\x7b'] || startsWithL (skipWsL rest) ['('])) ||
    (c == '(' && (startsWithL (skipWsL rest) ['\x7b'] || startsWithL (skipWsL rest) ['['])) ||
    anyMismatchPat rest

/-- errorAnalysisService.isLikelyValidBracketMismatch (lines 529-542); the
two bracket arguments are unused in the source patterns. -/
def isLikelyValidBracketMismatch (context : List Char) (o c : Char) : Bool :=
  anyMismatchPat context ∨ (o ≠ o ∧ c ≠ c)

/-- Readable rendering of one context character (errorAnalysisService.js
line 485): newline and tab are escaped. -/
def cleanCtxChar (c : Char) : String :=
  if c == '\n' then "\\n" else if c == '\t' then "\\t" else String.singleton c

/-- errorAnalysisService.analyzeBracketContext (lines 479-488). -/
def analyzeBracketContext (content : List Char) (position : Nat) : String :=
  let start := position - 20
  let stop := min content.length (position + 20)
  let ctx := (content.drop start).take (stop - start)
  "\"" ++ String.join (ctx.map cleanCtxChar) ++ "\" (pos " ++ toString position ++ ")"

/-- Matching bracket for an opener (the brackets map of line 353). -/
def closeFor (c : Char) : Char :=
  if c == '\x7b' then '\x7d' else if c == '[' then ']' else ')'

/-- Is the character one of the three openers. -/
def isOpenBracket (c : Char) : Bool :=
  c == '\x7b' || c == '[' || c == '('

/-- Is the character one of the three closers. -/
def isCloseBracket (c : Char) : Bool :=
  c == '\x7d' || c == ']' || c == ')'

/-- First index at or after start holding a newline, else the length
(the line-comment skip of lines 370-371). -/
def lineCommentEnd (content : List Char) (start : Nat) : Nat :=
  match (content.drop start).findIdx? (· == '\n') with
  | some k => start + k
  | none => content.length

/-- First relative index k with a star-slash pair at k, k+1. -/
def findStarSlash : List Char → Option Nat
  | '*' :: '/' :: _ => some 0
  | _ :: rest => (findStarSlash rest).map (· + 1)
  | [] => none

/-- The block-comment skip of lines 375-381: advance to just past the first
star-slash pair, or to length-1 when none is found before it. -/
def blockCommentEnd (content : List Char) (start : Nat) : Nat :=
  match findStarSlash (content.drop start) with
  | some k => start + k + 2
  | none => max start (content.length - 1)

/-- The main scanner loop of errorAnalysisService.validateBracketsIntelligently
(lines 351-468), fuelled (the index strictly increases every iteration, so
content length plus one units of fuel always suffice).  The stack holds
opener/position pairs most-recent first. -/
def vbLoop (content : List Char) : Nat → Nat → Bool → Option Char → Bool → Bool →
    List (Char × Nat) → List String → List String × List (Char × Nat)
  | 0, _, _, _, _, _, stack, issues => (issues, stack)
  | fuel + 1, i, inString, stringChar, inTemplate, inJSX, stack, issues =>
    match content.get? i with
    | none => (issues, stack)
    | some char =>
      let nextChar := content.get? (i + 1)
      let prevChar := if i = 0 then none else content.get? (i - 1)
      if char == '/' && nextChar == some '/' then
        vbLoop content fuel (lineCommentEnd content (i + 2)) inString stringChar
          inTemplate inJSX stack issues
      else if char == '/' && nextChar == some '*' then
        vbLoop content fuel (blockCommentEnd content (i + 2)) inString stringChar
          inTemplate inJSX stack issues
      else if !inString && (char == '"' || char == Char.ofNat 39) then
        vbLoop content fuel (i + 1) true (some char) inTemplate inJSX stack issues
      else if inString && some char == stringChar && prevChar != some '\\' then
        vbLoop content fuel (i + 1) false none inTemplate inJSX stack issues
      else if inString then
        vbLoop content fuel (i + 1) inString stringChar inTemplate inJSX stack issues
      else if !inTemplate && char == '\x60' then
        vbLoop content fuel (i + 1) inString stringChar true inJSX stack issues
      else if inTemplate && char == '\x60' then
        vbLoop content fuel (i + 1) inString stringChar false inJSX stack issues
      else if inTemplate then
        vbLoop content fuel (i + 1) inString stringChar inTemplate inJSX stack issues
      else if char == '<' && !inJSX &&
          (match nextChar with | some c2 => c2.isAlpha | none => false) then
        vbLoop content fuel (i + 1) inString stringChar inTemplate true stack issues
      else if inJSX && char == '>' then
        vbLoop content fuel (i + 1) inString stringChar inTemplate false stack issues
      else if inJSX then
        vbLoop content fuel (i + 1) inString stringChar inTemplate inJSX stack issues
      else if isOpenBracket char then
        vbLoop content fuel (i + 1) inString stringChar inTemplate inJSX
          ((char, i) :: stack) issues
      else if isCloseBracket char then
        match stack with
        | [] =>
          let context := (content.drop (i - 10)).take (min content.length (i + 10) - (i - 10))
          let issues2 :=
            if isLikelyValidClosingBracket context char then issues
            else issues ++ ["Unexpected closing bracket " ++ sqs ++ String.singleton char
              ++ sqs ++ " at position " ++ toString i ++ " - Context: "
              ++ analyzeBracketContext content i]
          vbLoop content fuel (i + 1) inString stringChar inTemplate inJSX [] issues2
        | (lastChar, lastPos) :: stackRest =>
          if closeFor lastChar != char then
            let context :=
              (content.drop (lastPos - 10)).take (min content.length (i + 10) - (lastPos - 10))
            let issues2 :=
              if isLikelyValidBracketMismatch context lastChar char then issues
              else issues ++ ["Mismatched bracket at position " ++ toString i ++ ": expected "
                ++ sqs ++ String.singleton (closeFor lastChar) ++ sqs ++ ", got " ++ sqs
                ++ String.singleton char ++ sqs ++ " - Context: "
                ++ analyzeBracketContext content i]
            vbLoop content fuel (i + 1) inString stringChar inTemplate inJSX stackRest issues2
          else
            vbLoop content fuel (i + 1) inString stringChar inTemplate inJSX stackRest issues
      else
        vbLoop content fuel (i + 1) inString stringChar inTemplate inJSX stack issues

/-- Join a list of strings with a separator. -/
def joinSep (sep : String) : List String → String
  | [] => ""
  | [s] => s
  | s :: t => s ++ sep ++ joinSep sep t

/-- errorAnalysisService.validateBracketsIntelligently (lines 351-477): run
the scanner and append the unclosed-brackets issue when the stack is
non-empty at the end. -/
def validateBracketsIntelligently (content : String) : List String :=
  let cs := content.toList
  let r := vbLoop cs (cs.length + 1) 0 false none false false [] []
  if r.2.isEmpty then r.1
  else r.1 ++ ["Unclosed brackets/parentheses: "
    ++ joinSep ", " (r.2.reverse.map (fun p => String.singleton p.1))]

/-- errorAnalysisService.checkForCommonIssues (lines 330-349): strict tier. -/
def checkForCommonIssues (content : String) : List String :=
  validateBracketsIntelligently content
    ++ (if jsIncludes content "undefinedundefined"
        then ["Potential undefined concatenation"] else [])
    ++ (if jsIncludes content "nullnull"
        then ["Potential null concatenation"] else [])

/-- Count of characters equal to c. -/
def countChar (c : Char) (s : String) : Nat :=
  s.toList.countP (· == c)

/-- Absolute difference of two counts (JS Math.abs of the difference). -/
def natDist (a b : Nat) : Nat :=
  max a b - min a b

/-- errorAnalysisService.checkForCommonIssuesLenient (lines 575-607):
corruption markers plus imbalances above 2. -/
def checkForCommonIssuesLenient (content : String) : List String :=
  (if jsIncludes content "undefinedundefined"
   then ["Potential undefined concatenation"] else [])
  ++ (if jsIncludes content "nullnull"
      then ["Potential null concatenation"] else [])
  ++ (if natDist (countChar '\x7b' content) (countChar '\x7d' content) > 2
      then ["Significant brace imbalance: " ++ toString (countChar '\x7b' content)
        ++ " open, " ++ toString (countChar '\x7d' content) ++ " close"] else [])
  ++ (if natDist (countChar '(' content) (countChar ')' content) > 2
      then ["Significant parenthesis imbalance: " ++ toString (countChar '(' content)
        ++ " open, " ++ toString (countChar ')' content) ++ " close"] else [])
  ++ (if natDist (countChar '[' content) (countChar ']' content) > 2
      then ["Significant bracket imbalance: " ++ toString (countChar '[' content)
        ++ " open, " ++ toString (countChar ']' content) ++ " close"] else [])

/-- errorAnalysisService.checkForCommonIssuesFallback (lines 609-649):
corruption markers, two (one self-contradictory, hence dead) syntax checks,
and imbalances above 5. -/
def checkForCommonIssuesFallback (content : String) : List String :=
  (if jsIncludes content "undefinedundefined"
   then ["Critical: undefined concatenation"] else [])
  ++ (if jsIncludes content "nullnull"
      then ["Critical: null concatenation"] else [])
  ++ (if jsIncludes content "function(" && !(jsIncludes content "function(")
      then ["Critical: malformed function declaration"] else [])
  ++ (if jsIncludes content "import " && jsIncludes content "from"
        && !(jsIncludes content ";") && !(jsIncludes content "\n")
      then ["Critical: malformed import statement"] else [])
  ++ (if natDist (countChar '\x7b' content) (countChar '\x7d' content) > 5
      then ["Critical: extreme brace imbalance: " ++ toString (countChar '\x7b' content)
        ++ " open, " ++ toString (countChar '\x7d' content) ++ " close"] else [])
  ++ (if natDist (countChar '(' content) (countChar ')' content) > 5
      then ["Critical: extreme parenthesis imbalance: " ++ toString (countChar '(' content)
        ++ " open, " ++ toString (countChar ')' content) ++ " close"] else [])
  ++ (if natDist (countChar '[' content) (countChar ']' content) > 5
      then ["Critical: extreme bracket imbalance: " ++ toString (countChar '[' content)
        ++ " open, " ++ toString (countChar ']' content) ++ " close"] else [])

/-- Suffix test via reversed prefix test (JS String.prototype.endsWith). -/
def endsWithL (s p : String) : Bool :=
  startsWithL s.toList.reverse p.toList.reverse

/-- The open-tag counting regex of checkTypeScriptIssues (line 550),
fuelled non-overlapping global scan. -/
def openTagScanF : Nat → List Char → Nat
  | 0, _ => 0
  | f + 1, '<' :: c2 :: rest =>
    if c2 != '/' then
      match rest.findIdx? (· == '>') with
      | some k => 1 + openTagScanF f (rest.drop (k + 1))
      | none => openTagScanF f (c2 :: rest)
    else openTagScanF f (c2 :: rest)
  | f + 1, _ :: rest => openTagScanF f rest
  | _ + 1, [] => 0

/-- The close-tag counting regex of checkTypeScriptIssues (line 551). -/
def closeTagScanF : Nat → List Char → Nat
  | 0, _ => 0
  | f + 1, '<' :: '/' :: rest =>
    (match rest.findIdx? (· == '>') with
     | some k => 1 + closeTagScanF f (rest.drop (k + 1))
     | none => closeTagScanF f ('/' :: rest))
  | f + 1, _ :: rest => closeTagScanF f rest
  | _ + 1, [] => 0

/-- The character class [^=;,\n] of the type-annotation regex. -/
def annClass (c : Char) : Bool :=
  !(c == '=' || c == ';' || c == ',' || c == '\n')

/-- Backtracking for :\s*[^=;,\n]+ after the colon: try the longest
whitespace prefix first, shrinking until the next character is in the
class; on success consume the maximal class run. -/
def annBack (l : List Char) : Nat → Option (List Char)
  | 0 =>
    (match l with
     | c :: _ => if annClass c then some (l.dropWhile annClass) else none
     | [] => none)
  | k + 1 =>
    (match l.drop (k + 1) with
     | c :: _ =>
       if annClass c then some ((l.drop (k + 1)).dropWhile annClass)
       else annBack l k
     | [] => annBack l k)

/-- The type-annotation counting regex of checkTypeScriptIssues (line 565),
fuelled global scan. -/
def annScanF : Nat → List Char → Nat
  | 0, _ => 0
  | _ + 1, [] => 0
  | f + 1, ':' :: rest =>
    (match annBack rest (rest.takeWhile isJsWs).length with
     | some rem => 1 + annScanF f rem
     | none => annScanF f rest)
  | f + 1, _ :: rest => annScanF f rest

/-- errorAnalysisService.checkTypeScriptIssues (lines 544-573). -/
def checkTypeScriptIssues (content filePath : String) : List String :=
  (if endsWithL filePath ".tsx" || endsWithL filePath ".jsx" then
    (if openTagScanF (content.toList.length + 1) content.toList
        ≠ closeTagScanF (content.toList.length + 1) content.toList
     then ["JSX tag mismatch: "
       ++ toString (openTagScanF (content.toList.length + 1) content.toList)
       ++ " open, "
       ++ toString (closeTagScanF (content.toList.length + 1) content.toList)
       ++ " close"] else [])
    ++ (if jsIncludes content "React." && !(jsIncludes content "import React")
        then ["Missing React import for JSX usage"] else [])
   else [])
  ++ (if endsWithL filePath ".ts" || endsWithL filePath ".tsx" then
      (if annScanF (content.toList.length + 1) content.toList
          > countChar ';' content * 2
       then ["Potential unclosed type annotations"] else [])
     else [])

/-- errorAnalysisService.validateFix (lines 271-328): strict common-issues
check, escalating to lenient then fallback on failure; with no strict issues,
script files additionally run the TypeScript/JSX check; parser errors are
modelled away (the pure scanner cannot throw). -/
def validateFix (newContent filePath : String) : Bool :=
  let issues := checkForCommonIssues newContent
  if issues.isEmpty then
    (if endsWithL filePath ".js" || endsWithL filePath ".jsx"
        || endsWithL filePath ".ts" || endsWithL filePath ".tsx" then
      (checkTypeScriptIssues newContent filePath).isEmpty
     else true)
  else
    if (checkForCommonIssuesLenient newContent).isEmpty then true
    else (checkForCommonIssuesFallback newContent).isEmpty

/-- Result of the base applyFix: either a bare JS boolean or the structured
success object. -/
inductive BaseResult where
  | rawBool (b : Bool)
  | applied (diff : String) (location : FixLocation)
deriving DecidableEq, Repr

/-- errorAnalysisService.applyFix (lines 113-161).  Every rejection path of
the source returns the bare boolean false (including the catch); only the
success path returns a structured object. -/
def applyFixBase (readResult : Except String String) (filePath : String)
    (fix : FixCand) : BaseResult :=
  match readResult with
  | .error _ => .rawBool false
  | .ok content =>
    let lines := jsSplitNl content
    let codeBlocks := extractCodeBlocks fix.code
    if codeBlocks.isEmpty then .rawBool false
    else
      match findFixLocation fix lines with
      | none => .rawBool false
      | some location =>
        match applyCodeFix lines codeBlocks location with
        | none => .rawBool false
        | some newLines =>
          let d := generateDiff content (joinNl newLines)
          if validateFix (joinNl newLines) filePath then .applied d location
          else .rawBool false

/-- A fenced block of the structured characterization used for the patch
extractor claim: a language tag and a body. -/
structure Fenced where
  lang : List Char
  body : List Char
deriving DecidableEq, Repr

/-- Render one fenced block: opening fence, language tag, newline, body,
closing fence. -/
def renderFenced (f : Fenced) : List Char :=
  '\x60' :: '\x60' :: '\x60' :: (f.lang ++ '\n' :: (f.body ++ ['\x60', '\x60', '\x60']))

/-- Render one fenced block followed by its trailing gap text. -/
def renderSeg (seg : Fenced × List Char) : List Char :=
  renderFenced seg.1 ++ seg.2

/-- Render a document: intro text, then each fenced block with its gap. -/
def renderDoc (intro : List Char) (segs : List (Fenced × List Char)) : List Char :=
  intro ++ (segs.map renderSeg).flatten

/-- Well-formed block-plus-gap: lowercase language tag, no backtick in body
or gap (so fences line up exactly with the rendered delimiters). -/
def wfSeg (seg : Fenced × List Char) : Bool :=
  seg.1.lang.all isLowerAlpha && seg.1.body.all (fun c => c != '\x60')
    && seg.2.all (fun c => c != '\x60')

/-- Well-formed document: no backtick in the intro, all segments
well-formed. -/
def wfDoc (intro : List Char) (segs : List (Fenced × List Char)) : Bool :=
  intro.all (fun c => c != '\x60') && segs.all wfSeg

/-- The window the claim describes for a radius and a 1-based match line:
the 1-based inclusive range a..b of the file lines, joined with newlines. -/
def claimWindow (lines : List String) (a b : Nat) : String :=
  joinNl ((lines.drop (a - 1)).take (b - a + 1))

/-- contextBuilder.estimateTokens (lines 12-14): Math.ceil(length / 4). -/
def estimateTokens (text : String) : Nat :=
  (text.length + 3) / 4

/-- Number each line with its 1-based line number starting at startLine
(the map of contextBuilder.getFileContent line 21). -/
def numberLines (startLine : Nat) : Nat → List String → List String
  | _, [] => []
  | i, l :: t => (toString (startLine + i) ++ ": " ++ l) :: numberLines startLine (i + 1) t

/-- contextBuilder.getFileContent (lines 17-26) on in-memory file lines:
content.slice(startLine - 1, endLine) with line-number prefixes. -/
def getFileContent (contentLines : List String) (startLine endLine : Nat) : String :=
  joinNl (numberLines startLine 0
    ((contentLines.drop (startLine - 1)).take (endLine - (startLine - 1))))

/-- One related file as resolved by findRelatedFiles and read back:
its basename and its lines.  The filesystem is an explicit input. -/
structure CtxFile where
  base : String
  contentLines : List String
deriving DecidableEq, Repr

/-- The related-file section text for one file (contextBuilder.js line 102,
with the first-50-lines truncation of line 98). -/
def renderRelSection (f : CtxFile) : String :=
  "\n=== Related File (" ++ f.base ++ ") ===\n" ++ getFileContent f.contentLines 1 50 ++ "\n"

/-- The related-files loop of contextBuilder.buildContext (lines 95-105):
break once the running estimate reaches the budget, otherwise append the
section only when it fits, and continue scanning either way. -/
def relLoop (maxTokens : Nat) : List CtxFile → Nat → String → String × Nat
  | [], tokens, context => (context, tokens)
  | file :: rest, tokens, context =>
    if tokens ≥ maxTokens then (context, tokens)
    else
      if tokens + estimateTokens (getFileContent file.contentLines 1 50) ≤ maxTokens then
        relLoop maxTokens rest (tokens + estimateTokens (getFileContent file.contentLines 1 50))
          (context ++ renderRelSection file)
      else relLoop maxTokens rest tokens context

/-- The target-window (or placeholder) section and its counted tokens
(contextBuilder.buildContext lines 78-90): the error-file section is added
unconditionally; only its content estimate is counted. -/
def windowSection (errorFileExists : Bool) (errorBase : String)
    (errorFileLines : List String) (errorLine : Nat) : String × Nat :=
  if errorFileExists then
    ("\n=== Error File (" ++ errorBase ++ ") ===\n"
      ++ getFileContent errorFileLines (max 1 (errorLine - 10)) (errorLine + 10) ++ "\n",
     estimateTokens (getFileContent errorFileLines (max 1 (errorLine - 10)) (errorLine + 10)))
  else
    ("\n=== Error File (" ++ errorBase ++ ") ===\nFile not found in repository\n", 0)

/-- contextBuilder.buildContext (lines 74-117), filesystem modelled as
inputs: error-file section unconditionally, then the related-files loop
(only when the error file exists), then the project structure only if it
fits the remaining budget. -/
def buildContext (errorFileExists : Bool) (errorBase : String)
    (errorFileLines : List String) (errorLine : Nat)
    (relatedFiles : List CtxFile) (structureText : String) (maxTokens : Nat) : String :=
  let ws := windowSection errorFileExists errorBase errorFileLines errorLine
  let afterRel :=
    if errorFileExists then relLoop maxTokens relatedFiles ws.2 ws.1 else ws
  if afterRel.2 + estimateTokens structureText ≤ maxTokens then
    afterRel.1 ++ "\n=== Project Structure ===\n" ++ structureText ++ "\n"
  else afterRel.1

/-- Declarative selection of the related files that the loop includes,
written from the amended claim: stop for good once the running estimate has
reached the budget; a file that alone would overflow is skipped but the scan
continues. -/
def relSelect (maxTokens : Nat) : List CtxFile → Nat → List CtxFile × Nat
  | [], tokens => ([], tokens)
  | file :: rest, tokens =>
    if tokens ≥ maxTokens then ([], tokens)
    else
      if tokens + estimateTokens (getFileContent file.contentLines 1 50) ≤ maxTokens then
        ((file :: (relSelect maxTokens rest
            (tokens + estimateTokens (getFileContent file.contentLines 1 50))).1),
         (relSelect maxTokens rest
            (tokens + estimateTokens (getFileContent file.contentLines 1 50))).2)
      else relSelect maxTokens rest tokens

/-- Concatenate the rendered sections of a file list. -/
def joinSections (files : List CtxFile) : String :=
  match files with
  | [] => ""
  | f :: t => renderRelSection f ++ joinSections t

/-- The assembled context as the amended claim describes it: the target
window (or placeholder) section unconditionally, then exactly the selected
related-file sections, then the structure section only if the final running
estimate plus its estimate stays within budget. -/
def buildContextSpec (errorFileExists : Bool) (errorBase : String)
    (errorFileLines : List String) (errorLine : Nat)
    (relatedFiles : List CtxFile) (structureText : String) (maxTokens : Nat) : String :=
  let ws := windowSection errorFileExists errorBase errorFileLines errorLine
  let sel :=
    if errorFileExists then relSelect maxTokens relatedFiles ws.2 else ([], ws.2)
  ws.1 ++ joinSections sel.1
    ++ (if sel.2 + estimateTokens structureText ≤ maxTokens
        then "\n=== Project Structure ===\n" ++ structureText ++ "\n" else "")

/-- One stack frame of a Sentry error payload (index.js parseSentryDetails).
Absent JSON fields are none; JS falsiness of empty strings and zero numbers
is applied at each use site. -/
structure SFrame where
  filename : Option String
  absPath : Option String
  moduleName : Option String
  lineno : Option Nat
  colno : Option Nat
  func : Option String
  preContext : Option (List String)
  contextLine : Option String
  postContext : Option (List String)
  inApp : Option Bool
deriving DecidableEq, Repr

/-- exception.values[0] of the payload: type, value and stacktrace frames. -/
structure SException where
  exType : Option String
  exValue : Option String
  frames : Option (List SFrame)
deriving DecidableEq, Repr

/-- The request object of the payload. -/
structure SRequest where
  url : Option String
  method : Option String
deriving DecidableEq, Repr

/-- The metadata object of the payload. -/
structure SMeta where
  filename : Option String
  line : Option Nat
  mtype : Option String
  mvalue : Option String
  mcategory : Option String
deriving DecidableEq, Repr

/-- The parts of a Sentry event payload read by parseSentryDetails.  Nested
optional chains (exception?.values?.[0], contexts?.trace?.op,
logentry?.message) are collapsed into single optional fields. -/
structure SentryEvent where
  exception : Option SException
  culprit : Option String
  transaction : Option String
  request : Option SRequest
  metadata : Option SMeta
  tags : Option (List (List String))
  contextsTraceOp : Option String
  logentryMessage : Option String
  message : Option String
  title : Option String
  errorField : Option String
  eventType : Option String
  eventValue : Option String
  eventCategory : Option String
deriving DecidableEq, Repr

/-- The event with every field absent. -/
def emptyEvent : SentryEvent :=
  ⟨none, none, none, none, none, none, none, none, none, none, none, none, none, none⟩

/-- JS truthiness of an optional string (undefined and empty are falsy). -/
def truthyS : Option String → Bool
  | none => false
  | some s => s != ""

/-- JS truthiness of an optional number (undefined and 0 are falsy). -/
def truthyN : Option Nat → Bool
  | none => false
  | some n => n != 0

/-- JS a || b on optional strings. -/
def jsOrS (a b : Option String) : Option String :=
  if truthyS a then a else b

/-- JS `x || null` on an optional string: collapse falsy to none. -/
def jsStr (a : Option String) : Option String :=
  if truthyS a then a else none

/-- JS `x || null` on an optional number: collapse falsy to none. -/
def jsNum (a : Option Nat) : Option Nat :=
  if truthyN a then a else none

/-- frame.filename || frame.abs_path || frame.module (line 139). -/
def framePathOf (f : SFrame) : Option String :=
  jsOrS f.filename (jsOrS f.absPath f.moduleName)

/-- frame.pre_context || frame.context_line || frame.post_context
(line 144); arrays are truthy even when empty. -/
def hasContextB (f : SFrame) : Bool :=
  f.preContext.isSome || truthyS f.contextLine || f.postContext.isSome

/-- The application-frame test of lines 141-144: a truthy path containing
"src/", in_app not externally flagged false, and some source context. -/
def appFrameCond (f : SFrame) : Bool :=
  truthyS (framePathOf f) && jsIncludes ((framePathOf f).getD "") "src/"
    && (f.inApp != some false) && hasContextB f

/-- The frameData record pushed for each application frame (lines 145-156,
minus the unused vars/data bags). -/
structure FrameData where
  file : Option String
  line : Option Nat
  col : Option Nat
  func : Option String
  preContext : List String
  contextLine : String
  postContext : List String
deriving DecidableEq, Repr

/-- Build a frameData record from a frame (lines 145-156). -/
def frameData (f : SFrame) : FrameData :=
  ⟨framePathOf f, f.lineno, f.colno, f.func,
   f.preContext.getD [], f.contextLine.getD "", f.postContext.getD []⟩

/-- The primary-frame selection of lines 137-177: the first application
frame, else the first frame with context, else the first frame. -/
def errorFrameSel (frames : List SFrame) : Option SFrame :=
  match frames.find? appFrameCond with
  | some fr => some fr
  | none =>
    match frames.find? hasContextB with
    | some fr => some fr
    | none => frames.head?

/-- The frames list of the payload (exception?.stacktrace?.frames, defaulted
to empty where the source writes `frames || []`). -/
def framesList (ev : SentryEvent) : List SFrame :=
  (ev.exception.bind SException.frames).getD []

/-- The structured location object parseSentryDetails returns. -/
structure ParsedDetails where
  file : Option String
  line : Option Nat
  col : Option Nat
  func : Option String
  error : Option String
  errorType : Option String
  category : Option String
  preContext : List String
  contextLine : String
  postContext : List String
  errorFrames : List FrameData
deriving DecidableEq, Repr

/-- The regex class [A-Za-z0-9]. -/
def alnum (c : Char) : Bool :=
  c.isAlpha || c.isDigit

/-- Backtracking for ([A-Za-z0-9]+Controller...): longest alphanumeric run
prefix of length at least one followed by the literal "Controller". -/
def csrTry (l : List Char) : Nat → Option String
  | 0 => none
  | k + 1 =>
    if startsWithL (l.drop (k + 1)) ("Controller".toList) then
      some (String.mk (l.take (k + 1) ++ "Controller".toList))
    else csrTry l k

/-- The alternation ([A-Za-z0-9]+Controller|Service|Repository) of line 231,
scanned left to right, alternatives tried in order. -/
def findCSR : List Char → Option String
  | [] => none
  | c :: rest =>
    match csrTry (c :: rest) ((c :: rest).takeWhile alnum).length with
    | some m => some m
    | none =>
      if startsWithL (c :: rest) ("Service".toList) then some "Service"
      else if startsWithL (c :: rest) ("Repository".toList) then some "Repository"
      else findCSR rest

/-- The extensions of the last-resort scan (line 254). -/
def extList : List String :=
  ["java", "js", "ts", "tsx", "jsx", "py", "go", "rb", "php", "cs", "cpp", "c",
   "kt", "swift"]

/-- The regex class [\w/\\.-]. -/
def isPathChar (c : Char) : Bool :=
  alnum c || c == '_' || c == '/' || c == '\\' || c == '.' || c == '-'

/-- Case-insensitive alternation over the known extensions at a position;
returns the matched extension length on success. -/
def extMatchLen (l : List Char) : Option Nat :=
  match extList.find? (fun e => startsWithL (l.map Char.toLower) e.toList) with
  | some e => some e.toList.length
  | none => none

/-- Backtracking for [\w/\\.-]+\.(ext...): longest path-char run prefix of
length at least one followed by a dot and a known extension. -/
def fileTry (l : List Char) : Nat → Option String
  | 0 => none
  | k + 1 =>
    match l.drop (k + 1) with
    | '.' :: after =>
      (match extMatchLen after with
       | some n => some (String.mk (l.take (k + 1) ++ '.' :: after.take n))
       | none => fileTry l k)
    | _ => fileTry l k

/-- The serialized-payload scan of lines 253-261: first match of the
file-path regex, scanning left to right. -/
def fileExtScan : List Char → Option String
  | [] => none
  | c :: rest =>
    match fileTry (c :: rest) ((c :: rest).takeWhile isPathChar).length with
    | some m => some m
    | none => fileExtScan rest

/-- JSON string escaping for the serialized payload. -/
def jsonEscape (s : String) : String :=
  String.join (s.toList.map (fun c =>
    if c == '"' then "\\\""
    else if c == '\\' then "\\\\"
    else if c == '\n' then "\\n"
    else if c == '\t' then "\\t"
    else if c == '\r' then "\\r"
    else String.singleton c))

/-- A JSON string literal. -/
def jsonStr (s : String) : String :=
  "\"" ++ jsonEscape s ++ "\""

/-- Optional JSON string field (absent fields are omitted, as
JSON.stringify omits undefined). -/
def jsonFieldS (name : String) (v : Option String) : List String :=
  match v with
  | none => []
  | some s => [jsonStr name ++ ":" ++ jsonStr s]

/-- Optional JSON number field. -/
def jsonFieldN (name : String) (v : Option Nat) : List String :=
  match v with
  | none => []
  | some n => [jsonStr name ++ ":" ++ toString n]

/-- Assemble a JSON object from its present fields. -/
def jsonObj (fields : List String) : String :=
  "\x7b" ++ joinSep "," fields ++ "\x7d"

/-- Serialize one frame.  Models JSON.stringify on the frame object with the
fields this model carries, in declaration order. -/
def jsonFrame (f : SFrame) : String :=
  jsonObj (jsonFieldS "filename" f.filename ++ jsonFieldS "abs_path" f.absPath
    ++ jsonFieldS "module" f.moduleName ++ jsonFieldN "lineno" f.lineno
    ++ jsonFieldN "colno" f.colno ++ jsonFieldS "function" f.func
    ++ jsonFieldS "context_line" f.contextLine)

/-- Serialize the payload.  Models JSON.stringify(sentryEvent) over the
fields this model carries, in declaration order (the real payload key order
is the wire order, which the model fixes to the structure order). -/
def renderJson (ev : SentryEvent) : String :=
  jsonObj
    ((match ev.exception with
      | none => []
      | some ex =>
        [jsonStr "exception" ++ ":"
          ++ jsonObj (jsonFieldS "type" ex.exType ++ jsonFieldS "value" ex.exValue
            ++ (match ex.frames with
                | none => []
                | some fs =>
                  ["\"frames\":[" ++ joinSep "," (fs.map jsonFrame) ++ "]"]))])
      ++ jsonFieldS "culprit" ev.culprit
      ++ jsonFieldS "transaction" ev.transaction
      ++ (match ev.request with
          | none => []
          | some r =>
            [jsonStr "request" ++ ":"
              ++ jsonObj (jsonFieldS "url" r.url ++ jsonFieldS "method" r.method)])
      ++ (match ev.metadata with
          | none => []
          | some m =>
            [jsonStr "metadata" ++ ":"
              ++ jsonObj (jsonFieldS "filename" m.filename ++ jsonFieldN "line" m.line
                ++ jsonFieldS "type" m.mtype ++ jsonFieldS "value" m.mvalue
                ++ jsonFieldS "category" m.mcategory)])
      ++ (match ev.tags with
          | none => []
          | some ts =>
            ["\"tags\":[" ++ joinSep ","
              (ts.map (fun t => "[" ++ joinSep "," (t.map jsonStr) ++ "]")) ++ "]"])
      ++ jsonFieldS "contexts" ev.contextsTraceOp
      ++ jsonFieldS "logentry" ev.logentryMessage
      ++ jsonFieldS "message" ev.message
      ++ jsonFieldS "title" ev.title
      ++ jsonFieldS "error" ev.errorField
      ++ jsonFieldS "type" ev.eventType
      ++ jsonFieldS "value" ev.eventValue
      ++ jsonFieldS "category" ev.eventCategory)

/-- Lowercase a string. -/
def toLowerStr (s : String) : String :=
  String.mk (s.toList.map Char.toLower)

/-- The /endpoint|url|route|controller/i tag-key test of line 216. -/
def tagKeyMatch (k : String) : Bool :=
  jsIncludes (toLowerStr k) "endpoint" || jsIncludes (toLowerStr k) "url"
    || jsIncludes (toLowerStr k) "route" || jsIncludes (toLowerStr k) "controller"

/-- Whether the frames block of lines 137-177 runs: frames is present and
non-empty. -/
def framesNonEmpty (ev : SentryEvent) : Bool :=
  (ev.exception.bind SException.frames).isSome && decide (0 < (framesList ev).length)

/-- The primary frame after the selection block (none when the frames block
does not run). -/
def psFrame (ev : SentryEvent) : Option SFrame :=
  if framesNonEmpty ev then errorFrameSel (framesList ev) else none

/-- file after line 179. -/
def psFile0 (ev : SentryEvent) : Option String :=
  jsStr (match psFrame ev with
         | some fr => framePathOf fr
         | none => none)

/-- line after line 180. -/
def psLine0 (ev : SentryEvent) : Option Nat :=
  jsNum (psFrame ev |>.bind SFrame.lineno)

/-- The back-fill frame of lines 190-203: the first frame with both a truthy
filename and a truthy line number, sought only when file or line is still
falsy. -/
def psBackfillFrame (ev : SentryEvent) : Option SFrame :=
  if !(truthyS (psFile0 ev) && truthyN (psLine0 ev)) then
    (framesList ev).find? (fun fr => truthyS fr.filename && truthyN fr.lineno)
  else none

/-- file after the back-fill loop. -/
def psFile1 (ev : SentryEvent) : Option String :=
  match psBackfillFrame ev with
  | some fr => framePathOf fr
  | none => psFile0 ev

/-- line after the back-fill loop. -/
def psLine1 (ev : SentryEvent) : Option Nat :=
  match psBackfillFrame ev with
  | some fr => fr.lineno
  | none => psLine0 ev

/-- error after line 187 (exception?.value || null). -/
def psError0 (ev : SentryEvent) : Option String :=
  jsStr (ev.exception.bind SException.exValue)

/-- error after the step-4 fallback of lines 225-227. -/
def psError1 (ev : SentryEvent) : Option String :=
  if !truthyS (psError0 ev) then
    jsStr (jsOrS ev.logentryMessage (jsOrS ev.message (jsOrS ev.title ev.errorField)))
  else psError0 ev

/-- The file fallback chain of steps 2, 3, 5, 6 and 9 (lines 206-261),
applied to the file value left by the back-fill. -/
def psFileFinal (ev : SentryEvent) : Option String :=
  let f1 := psFile1 ev
  let f2 := if !truthyS f1 && truthyS ev.culprit then ev.culprit else f1
  let f3 := if !truthyS f2 && truthyS ev.transaction then ev.transaction else f2
  let f4 := if !truthyS f3 && truthyS (ev.request.bind SRequest.url) then
      ev.request.bind SRequest.url else f3
  let f5 := if !truthyS f4 && truthyS (ev.request.bind SRequest.method) then
      some (((ev.request.bind SRequest.method).getD "") ++ " ") else f4
  let f6 := if !truthyS f5 && truthyS (ev.metadata.bind SMeta.filename) then
      ev.metadata.bind SMeta.filename else f5
  let f7 := if !truthyS f6 && ev.tags.isSome then
      (match (ev.tags.getD []).find?
          (fun tag => truthyS tag.head? && tagKeyMatch (tag.headD "")) with
       | some tag => tag[1]?
       | none => f6)
    else f6
  let f8 := if !truthyS f7 && truthyS ev.contextsTraceOp then ev.contextsTraceOp else f7
  let f9 := if !truthyS f8 && truthyS (psError1 ev) then
      (match findCSR ((psError1 ev).getD "").toList with
       | some m => some m
       | none => f8)
    else f8
  let f10 := if !truthyS f9 && truthyS ev.transaction then ev.transaction else f9
  if !truthyS f10 then
    (match fileExtScan (renderJson ev).toList with
     | some m => some m
     | none => f10)
  else f10

/-- index.js parseSentryDetails (lines 128-291) as a total function.  The
catch block of the source is unreachable in the typed model, so the function
is total by construction (the locator never throws). -/
def parseSentryDetails (ev : SentryEvent) : ParsedDetails :=
  let eFrame := psFrame ev
  let backfill := psBackfillFrame ev
  let col := match backfill with
    | some fr => fr.colno
    | none => jsNum (eFrame.bind SFrame.colno)
  let func := match backfill with
    | some fr => fr.func
    | none => jsStr (eFrame.bind SFrame.func)
  let pre0 := (eFrame.bind SFrame.preContext).getD []
  let ctx0 := (eFrame.bind SFrame.contextLine).getD ""
  let post0 := (eFrame.bind SFrame.postContext).getD []
  let pre := match backfill with
    | some fr => if fr.preContext.isSome then fr.preContext.getD [] else pre0
    | none => pre0
  let ctx := match backfill with
    | some fr => if truthyS fr.contextLine then fr.contextLine.getD "" else ctx0
    | none => ctx0
  let post := match backfill with
    | some fr => if fr.postContext.isSome then fr.postContext.getD [] else post0
    | none => post0
  let errorType0 := jsStr (ev.exception.bind SException.exType)
  let errorType1 := if !truthyS errorType0 then
      jsStr (jsOrS ev.eventType (ev.metadata.bind SMeta.mtype))
    else errorType0
  let errorType2 := if !truthyS errorType1 && truthyS ev.eventType then
      ev.eventType else errorType1
  let error2 := if !truthyS (psError1 ev) then
      jsStr (jsOrS ev.eventValue (ev.metadata.bind SMeta.mvalue))
    else psError1 ev
  let error3 := if !truthyS error2 && truthyS ev.eventValue then ev.eventValue else error2
  let category0 := jsStr (jsOrS ev.eventCategory (ev.metadata.bind SMeta.mcategory))
  let category1 := if !truthyS category0 && truthyS ev.eventCategory then
      ev.eventCategory else category0
  let line2 := if !truthyN (psLine1 ev) && truthyN (ev.metadata.bind SMeta.line) then
      ev.metadata.bind SMeta.line else psLine1 ev
  let errorFrames := if framesNonEmpty ev then
      ((framesList ev).filter appFrameCond).map frameData else []
  ⟨psFileFinal ev, line2, col, func, error3, errorType2, category1,
   pre, ctx, post, errorFrames⟩

/-- The fuelled diff of a line list with itself is all keep hunks whenever the
fuel covers the list. -/
theorem diffF_self (l : List String) :
    ∀ f, l.length ≤ f → diffF f l l = l.map (fun a => ⟨false, false, a⟩) := by
  induction l with
  | nil =>
    intro f _
    cases f with
    | zero => rfl
    | succ f => rfl
  | cons a as ih =>
    intro f hf
    cases f with
    | zero => simp at hf
    | succ f =>
      have : as.length ≤ f := by simpa using hf
      simp [diffF, ih f this]

/-- A candidate equal to the original text produces no added or removed
hunks, hence no meaningful change. -/
theorem hasMeaningfulChange_self (s : String) : hasMeaningfulChange s s = false := by
  unfold hasMeaningfulChange diffLines
  have h := diffF_self (jsSplitNl s) ((jsSplitNl s).length + (jsSplitNl s).length)
    (by omega)
  simp only [h, List.any_map]
  simp

theorem applyFixEnhanced_success_iff (content : String) (fix : FixCand) :
    (applyFixEnhanced (.ok content) fix).success = true ↔
      hasMeaningfulChange
          (enhOriginalBlock (jsSplitNl content) (effErrorLine fix.errorLine)) fix.code
        = true ∧ fix.confidence > 0.6 := by
  unfold applyFixEnhanced
  by_cases hm : hasMeaningfulChange
      (enhOriginalBlock (jsSplitNl content) (effErrorLine fix.errorLine)) fix.code = true <;>
    by_cases hc : fix.confidence > 0.6 <;>
      simp [hm, hc]

/-- C1: The enhanced change gate applies a fix exactly when the line diff
between the original window and the fix has a meaningful change and the
confidence is STRICTLY greater than 0.6 (enhancedErrorAnalysisService.js line
419 uses fix.confidence > 0.6); a meaningful fix with confidence exactly 0.6
is rejected with reason "Low confidence". -/
theorem c1_gate_strict_threshold (content : String) (fix : FixCand) :
    ((applyFixEnhanced (.ok content) fix).success = true ↔
      hasMeaningfulChange
          (enhOriginalBlock (jsSplitNl content) (effErrorLine fix.errorLine)) fix.code
        = true ∧ fix.confidence > 0.6) ∧
    (fix.confidence = 0.6 →
      (applyFixEnhanced (.ok content) fix).success = false ∧
      (applyFixEnhanced (.ok content) fix).reason = some "Low confidence") := by
  constructor
  · exact applyFixEnhanced_success_iff content fix
  · intro h6
    unfold applyFixEnhanced
    have hnot : ¬ (fix.confidence > 0.6) := by rw [h6]; exact lt_irrefl _
    have hle : fix.confidence ≤ 0.6 := by rw [h6]
    by_cases hm : hasMeaningfulChange
        (enhOriginalBlock (jsSplitNl content) (effErrorLine fix.errorLine)) fix.code = true <;>
      simp [hm, hnot, hle]

/-- C1 counterexample: a meaningful fix with confidence exactly 0.6 is NOT
applied, refuting the claim that the gate applies whenever the confidence is
at least the 0.6 threshold. -/
theorem c1_counterexample :
    hasMeaningfulChange
        (enhOriginalBlock (jsSplitNl "a") (effErrorLine (some 1))) "b" = true ∧
    (applyFixEnhanced (.ok "a") ⟨"b", 0.6, some 1⟩).success = false := by
  constructor
  · decide
  · rw [← Bool.not_eq_true, applyFixEnhanced_success_iff]
    exact fun hx => absurd hx.2 (by norm_num)

/-- C10: The enhanced confidence score always lies in the closed interval
[0.5, 0.95]: the base is 0.5, every indicator only adds, and the result is
capped by Math.min(confidence, 0.95). -/
theorem c10_confidence_bounds (response fixCode : String) :
    (0.5 : ℚ) ≤ calculateConfidence response fixCode ∧
      calculateConfidence response fixCode ≤ 0.95 := by
  unfold calculateConfidence
  split_ifs <;> constructor <;> norm_num

/-- C3 counterexample: a candidate identical to the original modulo
whitespace CAN be classified as meaningful and applied: original window
"a b" and candidate "ab" are equal after removing all whitespace, yet the
line diff has a removed hunk "a b" and an added hunk "ab", both with
non-whitespace content, so the gate applies the fix (confidence 0.9 over
the 0.6 threshold). -/
theorem c3_counterexample :
    stripJsWs "a b" = stripJsWs "ab" ∧
    hasMeaningfulChange "a b" "ab" = true ∧
    (applyFixEnhanced (.ok "a b") ⟨"ab", 0.9, some 1⟩).success = true := by
  refine ⟨by decide, by decide, ?_⟩
  rw [applyFixEnhanced_success_iff]
  exact ⟨by decide, by norm_num⟩

/-- C3: Amended: the change gate classifies as not meaningful, and does not
apply, any candidate whose line-diff hunks against the original window are
all whitespace-only (every added or removed hunk has empty content after
removing whitespace); in particular a candidate exactly equal to the
original window is never applied.  Equality merely modulo whitespace is not
sufficient, because whitespace changes inside a non-blank line yield hunks
with non-whitespace content. -/
theorem c3_whitespace_gate :
    (∀ (content : String) (fix : FixCand),
      (∀ ch ∈ diffLines
          (enhOriginalBlock (jsSplitNl content) (effErrorLine fix.errorLine)) fix.code,
        (ch.added || ch.removed) = true → stripJsWs ch.value = "") →
      hasMeaningfulChange
          (enhOriginalBlock (jsSplitNl content) (effErrorLine fix.errorLine)) fix.code
        = false ∧
      (applyFixEnhanced (.ok content) fix).success = false ∧
      (applyFixPart000 (.ok content) fix).success = false) ∧
    (∀ (content : String) (fix : FixCand),
      fix.code = enhOriginalBlock (jsSplitNl content) (effErrorLine fix.errorLine) →
      (applyFixEnhanced (.ok content) fix).success = false ∧
      (applyFixPart000 (.ok content) fix).success = false) := by
  have main : ∀ (content : String) (fix : FixCand),
      (∀ ch ∈ diffLines
          (enhOriginalBlock (jsSplitNl content) (effErrorLine fix.errorLine)) fix.code,
        (ch.added || ch.removed) = true → stripJsWs ch.value = "") →
      hasMeaningfulChange
          (enhOriginalBlock (jsSplitNl content) (effErrorLine fix.errorLine)) fix.code
        = false ∧
      (applyFixEnhanced (.ok content) fix).success = false ∧
      (applyFixPart000 (.ok content) fix).success = false := by
    intro content fix h
    have hm : hasMeaningfulChange
        (enhOriginalBlock (jsSplitNl content) (effErrorLine fix.errorLine)) fix.code
        = false := by
      unfold hasMeaningfulChange
      rw [List.any_eq_false]
      intro ch hch
      by_cases har : (ch.added || ch.removed) = true
      · have hws := h ch hch har
        simp [har, hws]
      · have harf : (ch.added || ch.removed) = false := Bool.eq_false_iff.mpr har
        simp [harf]
    refine ⟨hm, ?_, ?_⟩
    · unfold applyFixEnhanced
      simp [hm]
    · unfold applyFixPart000
      simp [hm]
  refine ⟨main, ?_⟩
  intro content fix heq
  have hall : ∀ ch ∈ diffLines
      (enhOriginalBlock (jsSplitNl content) (effErrorLine fix.errorLine)) fix.code,
      (ch.added || ch.removed) = true → stripJsWs ch.value = "" := by
    rw [heq]
    unfold diffLines
    intro ch hch
    dsimp only at hch
    rw [diffF_self
      (jsSplitNl (enhOriginalBlock (jsSplitNl content) (effErrorLine fix.errorLine)))
      _ (by omega)] at hch
    obtain ⟨a, _, rfl⟩ := List.mem_map.mp hch
    intro har
    simp at har
  exact (main content fix hall).2

/-- C3 witness: a candidate that appends one blank line to the window (all
diff hunks whitespace-only, candidate not equal to the window) is classified
not meaningful and rejected by both gate generations; a candidate exactly
equal to the window is rejected too. -/
theorem c3_whitespace_gate_witness :
    (∀ ch ∈ diffLines
        (enhOriginalBlock (jsSplitNl "a") (effErrorLine (some 1))) "a\n",
      (ch.added || ch.removed) = true → stripJsWs ch.value = "") ∧
    ("a\n" : String) ≠ enhOriginalBlock (jsSplitNl "a") (effErrorLine (some 1)) ∧
    hasMeaningfulChange
        (enhOriginalBlock (jsSplitNl "a") (effErrorLine (some 1))) "a\n" = false ∧
    (applyFixEnhanced (.ok "a") ⟨"a\n", 0.9, some 1⟩).success = false ∧
    (applyFixPart000 (.ok "a") ⟨"a\n", 0.9, some 1⟩).success = false ∧
    (applyFixEnhanced (.ok "a\nb") ⟨"a\nb", 0.9, some 1⟩).success = false ∧
    (applyFixPart000 (.ok "a\nb") ⟨"a\nb", 0.9, some 1⟩).success = false := by
  have hws : ∀ ch ∈ diffLines
      (enhOriginalBlock (jsSplitNl "a") (effErrorLine (some 1))) "a\n",
      (ch.added || ch.removed) = true → stripJsWs ch.value = "" := by decide
  have h1 := c3_whitespace_gate.1 "a" ⟨"a\n", 0.9, some 1⟩ hws
  have h2 := c3_whitespace_gate.2 "a\nb" ⟨"a\nb", 0.9, some 1⟩ (by decide)
  exact ⟨hws, by decide, h1.1, h1.2.1, h1.2.2, h2.1, h2.2⟩

/-- Rejection reasons of the enhanced applyFix on a successful read. -/
theorem applyFixEnhanced_reject (content : String) (fix : FixCand)
    (h : (applyFixEnhanced (.ok content) fix).success = false) :
    (applyFixEnhanced (.ok content) fix).reason = some "Low confidence" ∨
    (applyFixEnhanced (.ok content) fix).reason = some "No meaningful changes detected" := by
  unfold applyFixEnhanced at h ⊢
  by_cases hc : (hasMeaningfulChange
      (enhOriginalBlock (jsSplitNl content) (effErrorLine fix.errorLine)) fix.code
      && decide (fix.confidence > 0.6)) = true
  · simp [hc] at h
  · by_cases hle : fix.confidence ≤ 0.6
    · left
      simp [hc, hle]
    · right
      simp [hc, hle]

/-- C4: Amended: the enhanced applyFix never throws and every terminal
outcome is a structured result: on rejection it carries reason
"Low confidence" or "No meaningful changes detected", or the underlying I/O
message on a read error.  The base applyFix, however, returns the bare JS
boolean false on every rejection path (missing blocks, failed location,
failed splice, failed validation, and I/O errors alike), producing a
structured object only on success. -/
theorem c4_structured_outcomes (readResult : Except String String) (fix : FixCand) :
    ((applyFixEnhanced readResult fix).success = false →
      (applyFixEnhanced readResult fix).reason = some "Low confidence" ∨
      (applyFixEnhanced readResult fix).reason = some "No meaningful changes detected" ∨
      ∃ m, readResult = Except.error m ∧ (applyFixEnhanced readResult fix).reason = some m) ∧
    (∀ filePath, applyFixBase readResult filePath fix = .rawBool false ∨
      ∃ d loc, applyFixBase readResult filePath fix = .applied d loc) := by
  constructor
  · intro hf
    match readResult with
    | .error m =>
      right; right
      exact ⟨m, rfl, rfl⟩
    | .ok content =>
      rcases applyFixEnhanced_reject content fix hf with h | h
      · left; exact h
      · right; left; exact h
  · intro filePath
    match readResult with
    | .error m => left; rfl
    | .ok content =>
      unfold applyFixBase
      dsimp only
      split
      · left; rfl
      · split
        · left; rfl
        · split
          · left; rfl
          · split
            · right; exact ⟨_, _, rfl⟩
            · left; rfl

/-- C4 witness: concretely, a fix whose pattern is nowhere in the file makes
the base applyFix fail location and return the bare boolean false. -/
theorem c4_structured_outcomes_witness :
    (applyFixBase (.ok "x") "f.js" ⟨"zzz", 0.9, none⟩ = .rawBool false ∨
      ∃ d loc, applyFixBase (.ok "x") "f.js" ⟨"zzz", 0.9, none⟩ = .applied d loc) ∧
    applyFixBase (.ok "x") "f.js" ⟨"zzz", 0.9, none⟩ = .rawBool false :=
  ⟨(c4_structured_outcomes (.ok "x") ⟨"zzz", 0.9, none⟩).2 "f.js", by decide⟩

/-- C4 counterexample: on a failed location the base applyFix returns the
bare boolean false, not a structured result object with success false and a
reason, refuting the claim for errorAnalysisService.applyFix. -/
theorem c4_counterexample :
    applyFixBase (.ok "x") "f.js" ⟨"zzz", 0.9, none⟩ = .rawBool false ∧
    ∀ d loc, applyFixBase (.ok "x") "f.js" ⟨"zzz", 0.9, none⟩ ≠ .applied d loc := by
  refine ⟨by decide, ?_⟩
  intro d loc h
  rw [(by decide : applyFixBase (.ok "x") "f.js" ⟨"zzz", 0.9, none⟩ = .rawBool false)] at h
  exact BaseResult.noConfusion h

/-- C5: Amended: the base findFixLocation with an in-range known error line
L returns exactly startLine = max(1, L-2), endLine = min(len, L+2) as the
claim states (radius 2); the enhanced pipeline window, however, is computed
with a 0-based slice max(0, L-5) .. min(len, L+5), so the block it replaces
covers the 1-based lines max(1, L-4) .. min(len, L+5): one line short of the
claimed radius-5 window at the top whenever L is at least 6. -/
theorem c5_window_radius (lines : List String) (fix : FixCand) (L : Nat)
    (hL : fix.errorLine = some L) (h1 : 1 ≤ L) (h2 : L ≤ lines.length) :
    findFixLocation fix lines = some ⟨max 1 (L - 2), min lines.length (L + 2),
      (lines.drop (L - 2)).take (min lines.length (L + 2) - (L - 2))⟩ ∧
    effErrorLine fix.errorLine = (L : Int) ∧
    enhOriginalBlock lines ((L : Int))
      = claimWindow lines (max 1 (L - 4)) (min lines.length (L + 5)) := by
  refine ⟨?_, ?_, ?_⟩
  · unfold findFixLocation
    rw [hL]
    simp only [Option.getD_some]
    rw [if_pos ⟨by omega, h2⟩]
  · rw [hL]
    show (if L = 0 then (1 : Int) else (L : Int)) = (L : Int)
    rw [if_neg (by omega)]
  · unfold enhOriginalBlock claimWindow enhStartLine enhEndLine
    have hs : (max 0 ((L : Int) - 5)).toNat = L - 5 := by omega
    have he : (min ((lines.length : Int)) ((L : Int) + 5)).toNat = min lines.length (L + 5) := by
      omega
    rw [hs, he]
    have ha : max 1 (L - 4) - 1 = L - 5 := by omega
    have hb : min lines.length (L + 5) - max 1 (L - 4) + 1
        = min lines.length (L + 5) - (L - 5) := by omega
    rw [ha, hb]

/-- C5 witness: a 12-line file with error line 6 instantiates the amended
window formulas for both pipelines. -/
theorem c5_window_radius_witness :
    findFixLocation ⟨"c", 0.9, some 6⟩
        ["L1", "L2", "L3", "L4", "L5", "L6", "L7", "L8", "L9", "L10", "L11", "L12"]
      = some ⟨max 1 (6 - 2), min 12 (6 + 2),
        ((["L1", "L2", "L3", "L4", "L5", "L6", "L7", "L8", "L9", "L10", "L11", "L12"] :
            List String).drop (6 - 2)).take (min 12 (6 + 2) - (6 - 2))⟩ ∧
    effErrorLine (some 6) = (6 : Int) ∧
    enhOriginalBlock
        ["L1", "L2", "L3", "L4", "L5", "L6", "L7", "L8", "L9", "L10", "L11", "L12"] 6
      = claimWindow
          ["L1", "L2", "L3", "L4", "L5", "L6", "L7", "L8", "L9", "L10", "L11", "L12"]
          (max 1 (6 - 4)) (min 12 (6 + 5)) := by
  have h := c5_window_radius
    ["L1", "L2", "L3", "L4", "L5", "L6", "L7", "L8", "L9", "L10", "L11", "L12"]
    ⟨"c", 0.9, some 6⟩ 6 rfl (by omega) (by simp)
  simpa using h

/-- C5 counterexample: with error line 6 in a 12-line file the enhanced
pipeline window equals lines 2..11, not the claimed max(1, 6-5) = 1 to
min(12, 6+5) = 11 window: the claim start = max(1, L-k) fails for the
enhanced pipeline. -/
theorem c5_counterexample :
    enhOriginalBlock
        ["L1", "L2", "L3", "L4", "L5", "L6", "L7", "L8", "L9", "L10", "L11", "L12"] 6
      = claimWindow
          ["L1", "L2", "L3", "L4", "L5", "L6", "L7", "L8", "L9", "L10", "L11", "L12"] 2 11 ∧
    enhOriginalBlock
        ["L1", "L2", "L3", "L4", "L5", "L6", "L7", "L8", "L9", "L10", "L11", "L12"] 6
      ≠ claimWindow
          ["L1", "L2", "L3", "L4", "L5", "L6", "L7", "L8", "L9", "L10", "L11", "L12"]
          (max 1 (6 - 5)) (min 12 (6 + 5)) := by
  constructor
  · decide
  · decide

/-- firstMatchIdx returns the first index satisfying the predicate: the
element there satisfies it and every earlier element fails it. -/
theorem firstMatchIdx_first (p : String → Bool) (l : List String) (i : Nat)
    (h : firstMatchIdx p l = some i) :
    ∃ x, l[i]? = some x ∧ p x = true ∧
      ∀ j, j < i → ∀ y, l[j]? = some y → p y = false := by
  induction l generalizing i with
  | nil => simp [firstMatchIdx] at h
  | cons a t ih =>
    unfold firstMatchIdx at h
    by_cases hp : p a = true
    · rw [if_pos hp] at h
      simp only [Option.some.injEq] at h
      subst h
      exact ⟨a, by simp, hp, fun j hj => absurd hj (by omega)⟩
    · rw [if_neg hp] at h
      obtain ⟨i2, hfind, heq⟩ := Option.map_eq_some'.mp h
      subst heq
      obtain ⟨x, hx, hpx, hprev⟩ := ih i2 hfind
      refine ⟨x, by simpa using hx, hpx, ?_⟩
      intro j hj y hy
      cases j with
      | zero =>
        simp only [List.getElem?_cons_zero, Option.some.injEq] at hy
        subst hy
        exact Bool.eq_false_iff.mpr hp
      | succ j2 =>
        exact hprev j2 (by omega) y (by simpa using hy)

/-- When firstMatchIdx finds nothing, no line satisfies the predicate. -/
theorem firstMatchIdx_none (p : String → Bool) (l : List String)
    (h : firstMatchIdx p l = none) : ∀ x ∈ l, p x = false := by
  induction l with
  | nil => intro x hx; cases hx
  | cons a t ih =>
    unfold firstMatchIdx at h
    by_cases hp : p a = true
    · rw [if_pos hp] at h
      cases h
    · rw [if_neg hp] at h
      intro x hx
      rcases List.mem_cons.mp hx with rfl | hmem
      · exact Bool.eq_false_iff.mpr hp
      · exact ih (by simpa using h) x hmem

/-- C6: Amended: with no usable known error line, findFixLocation takes the
first non-empty line of the first extracted block, trims it, and scans the
file top-to-bottom CASE-SENSITIVELY for the first line that contains it as a
plain substring or whose trimmed content is contained in it; at 0-based match
index i it returns startLine = max(1, i-2) and endLine = min(len, i+2) (one
line above a radius-2 window centred on the 1-based match line), and with no
match it returns null. -/
theorem c6_fuzzy_location (lines : List String) (fix : FixCand) (b0 : String)
    (bs : List String) (s0 : String) (ss : List String)
    (hE : fix.errorLine.getD 0 = 0 ∨ lines.length < fix.errorLine.getD 0)
    (hB : extractCodeBlocks fix.code = b0 :: bs)
    (hb0 : b0 ≠ "")
    (hS : (jsSplitNl b0).filter (fun l => (jsTrim l).length > 0) = s0 :: ss) :
    (∀ i, firstMatchIdx (fuzzyPred (jsTrim s0)) lines = some i →
      findFixLocation fix lines = some ⟨max 1 (i - 2), min lines.length (i + 2),
        (lines.drop (i - 2)).take (min lines.length (i + 2) - (i - 2))⟩ ∧
      ∃ x, lines[i]? = some x ∧ fuzzyPred (jsTrim s0) x = true ∧
        ∀ j, j < i → ∀ y, lines[j]? = some y → fuzzyPred (jsTrim s0) y = false) ∧
    (firstMatchIdx (fuzzyPred (jsTrim s0)) lines = none →
      findFixLocation fix lines = none ∧
      ∀ x ∈ lines, fuzzyPred (jsTrim s0) x = false) := by
  have hcond : ¬ (0 < fix.errorLine.getD 0 ∧ fix.errorLine.getD 0 ≤ lines.length) := by
    rcases hE with h | h <;> omega
  constructor
  · intro i hi
    constructor
    · unfold findFixLocation
      rw [if_neg hcond, hB]
      dsimp only
      rw [if_neg hb0, hS]
      dsimp only
      rw [hi]
    · exact firstMatchIdx_first _ _ _ hi
  · intro hn
    constructor
    · unfold findFixLocation
      rw [if_neg hcond, hB]
      dsimp only
      rw [if_neg hb0, hS]
      dsimp only
      rw [hn]
    · exact firstMatchIdx_none _ _ hn

/-- C6 witness: the scan finds "target line" at 0-based index 4 of an 8-line
file and returns the window (2, 6). -/
theorem c6_fuzzy_location_witness :
    findFixLocation ⟨"```\ntarget line\n```", 0.9, none⟩
        ["l1", "l2", "l3", "l4", "target line", "l6", "l7", "l8"]
      = some ⟨2, 6, ["l3", "l4", "target line", "l6"]⟩ ∧
    ∃ x, (["l1", "l2", "l3", "l4", "target line", "l6", "l7", "l8"] :
        List String)[4]? = some x ∧
      fuzzyPred (jsTrim "target line") x = true ∧
      ∀ j, j < 4 → ∀ y, (["l1", "l2", "l3", "l4", "target line", "l6", "l7", "l8"] :
          List String)[j]? = some y → fuzzyPred (jsTrim "target line") y = false := by
  have h := (c6_fuzzy_location ["l1", "l2", "l3", "l4", "target line", "l6", "l7", "l8"]
    ⟨"```\ntarget line\n```", 0.9, none⟩ "target line" [] "target line" []
    (Or.inl rfl) (by decide) (by decide) (by decide)).1 4 (by decide)
  refine ⟨?_, h.2⟩
  rw [h.1]
  decide

/-- C6 counterexample: the claim predicts the radius-2 window (3, 7) centred
on the 1-based match line 5, but the code computes the window from the
0-based index 4 and returns (2, 6); moreover the scan is case-sensitive, not
case-insensitive as claimed. -/
theorem c6_counterexample :
    findFixLocation ⟨"```\ntarget line\n```", 0.9, none⟩
        ["l1", "l2", "l3", "l4", "target line", "l6", "l7", "l8"]
      = some ⟨2, 6, ["l3", "l4", "target line", "l6"]⟩ ∧
    (2, 6) ≠ (max 1 (5 - 2), min 8 (5 + 2)) ∧
    findFixLocation ⟨"```\nTARGET LINE\n```", 0.9, none⟩ ["target line"] = none := by
  refine ⟨by decide, by decide, by decide⟩

/-- A conditional singleton list is empty exactly when the condition fails. -/
theorem ite_singleton_eq_nil (c : Prop) [Decidable c] (x : String) :
    ((if c then [x] else []) = []) ↔ ¬ c := by
  split_ifs with h <;> simp [h]

/-- C8: Amended: when the strict common-issues check reports issues,
validation re-attempts at the lenient tier and then the fallback tier and
fails only if all three report issues; the fallback tier flags
bracket/brace/paren imbalance only when the absolute count difference
exceeds 5.  However, a content that passes the strict common-issues check
can still fail validation on the separate TypeScript/JSX check without any
tier escalation. -/
theorem c8_tiered_validation (content filePath : String) :
    (checkForCommonIssues content ≠ [] →
      (validateFix content filePath = true ↔
        (checkForCommonIssuesLenient content = [] ∨
         checkForCommonIssuesFallback content = []))) ∧
    (checkForCommonIssuesFallback content = [] ↔
      (jsIncludes content "undefinedundefined" = false ∧
       jsIncludes content "nullnull" = false ∧
       (jsIncludes content "import " && jsIncludes content "from"
         && !(jsIncludes content ";") && !(jsIncludes content "\n")) = false ∧
       natDist (countChar '\x7b' content) (countChar '\x7d' content) ≤ 5 ∧
       natDist (countChar '(' content) (countChar ')' content) ≤ 5 ∧
       natDist (countChar '[' content) (countChar ']' content) ≤ 5)) := by
  constructor
  · intro hne
    unfold validateFix
    have hni : (checkForCommonIssues content).isEmpty = false :=
      Bool.eq_false_iff.mpr (fun h => hne (List.isEmpty_iff.mp h))
    simp only [hni, Bool.false_eq_true, if_false]
    by_cases hl : checkForCommonIssuesLenient content = []
    · simp [hl, List.isEmpty_iff]
    · have hlf : (checkForCommonIssuesLenient content).isEmpty = false :=
        Bool.eq_false_iff.mpr (fun h => hl (List.isEmpty_iff.mp h))
      simp [hlf, hl, List.isEmpty_iff]
  · unfold checkForCommonIssuesFallback
    simp only [List.append_eq_nil, ite_singleton_eq_nil, Bool.and_not_self,
      Bool.false_eq_true, if_false, Bool.not_eq_true, not_lt, true_and]
    tauto

/-- C8 witness: a single unmatched open paren fails the strict tier but
passes the lenient tier, so validation succeeds by escalation. -/
theorem c8_tiered_validation_witness :
    checkForCommonIssues "(" ≠ [] ∧
    (validateFix "(" "f.js" = true ↔
      (checkForCommonIssuesLenient "(" = [] ∨
       checkForCommonIssuesFallback "(" = [])) ∧
    validateFix "(" "f.js" = true :=
  ⟨by decide, (c8_tiered_validation "(" "f.js").1 (by decide), by decide⟩

/-- C8 counterexample: the content of a .tsx file consisting of one unclosed
JSX tag passes the strict common-issues tier, yet validateFix returns false
through the separate TypeScript/JSX check while the lenient and fallback
tiers report no issues: the validator can return false without all three
tiers reporting issues. -/
theorem c8_counterexample :
    validateFix "<div>" "a.tsx" = false ∧
    checkForCommonIssues "<div>" = [] ∧
    checkForCommonIssuesLenient "<div>" = [] ∧
    checkForCommonIssuesFallback "<div>" = [] := by
  refine ⟨by decide, by decide, by decide, by decide⟩

/-- A list without backticks contains no fence. -/
theorem findTT_noBT (l : List Char) (h : '\x60' ∉ l) : findTripleTick l = none := by
  induction l with
  | nil => rfl
  | cons c rest ih =>
    have hc : c ≠ '\x60' := fun e => h (by simp [e])
    have hr : '\x60' ∉ rest := fun m => h (List.mem_cons_of_mem _ m)
    unfold findTripleTick
    rw [if_neg (by simp [startsWithL, hc])]
    rw [ih hr]

/-- Scanning past a backtick-free part finds the fence right after it. -/
theorem findTT_app (pre post : List Char) (h : '\x60' ∉ pre) :
    findTripleTick (pre ++ '\x60' :: '\x60' :: '\x60' :: post) = some (pre, post) := by
  induction pre with
  | nil =>
    rw [List.nil_append]
    unfold findTripleTick
    rw [if_pos (by simp [startsWithL])]
    rfl
  | cons c pre ih =>
    have hc : c ≠ '\x60' := fun e => h (by simp [e])
    have hpre : '\x60' ∉ pre := fun m => h (List.mem_cons_of_mem _ m)
    rw [List.cons_append]
    unfold findTripleTick
    rw [if_neg (by simp [startsWithL, hc])]
    rw [ih hpre]

/-- A list with no fence substring has no fence for the scanner. -/
theorem findTT_of_noSub (l : List Char)
    (h : hasSub l ['\x60', '\x60', '\x60'] = false) : findTripleTick l = none := by
  induction l with
  | nil => rfl
  | cons c rest ih =>
    unfold hasSub at h
    rw [Bool.or_eq_false_iff] at h
    unfold findTripleTick
    rw [if_neg (by simp [h.1])]
    rw [ih h.2]

/-- takeWhile of the lowercase class stops exactly at the newline ending a
lowercase run. -/
theorem takeWhile_lower_append (lang rest : List Char)
    (hl : ∀ c ∈ lang, isLowerAlpha c = true) :
    (lang ++ '\n' :: rest).takeWhile isLowerAlpha = lang := by
  induction lang with
  | nil =>
    rw [List.nil_append, List.takeWhile_cons, if_neg (by decide)]
  | cons c lang ih =>
    have hc := hl c (by simp)
    have hrest : ∀ x ∈ lang, isLowerAlpha x = true := fun x hx => hl x (by simp [hx])
    rw [List.cons_append, List.takeWhile_cons, if_pos hc, ih hrest]

/-- The optional language tag group consumes exactly a lowercase tag plus the
following newline. -/
theorem dropLangTag_tagged (lang rest : List Char)
    (hl : ∀ c ∈ lang, isLowerAlpha c = true) :
    dropLangTag (lang ++ '\n' :: rest) = rest := by
  unfold dropLangTag
  rw [takeWhile_lower_append lang rest hl, List.drop_left]
  rfl

/-- Shape of one rendered segment followed by arbitrary trailing text. -/
theorem renderSeg_shape (seg : Fenced × List Char) (tail : List Char) :
    renderSeg seg ++ tail
      = '\x60' :: '\x60' :: '\x60' :: (seg.1.lang ++ '\n' ::
          (seg.1.body ++ '\x60' :: '\x60' :: '\x60' :: (seg.2 ++ tail))) := by
  simp [renderSeg, renderFenced]

/-- The extractor loop maps a well-formed rendered document to its trimmed
block bodies, for any fuel covering the number of blocks. -/
theorem exCore_render (segs : List (Fenced × List Char)) : ∀ (pre : List Char) (f : Nat),
    segs.length ≤ f → '\x60' ∉ pre → segs.all wfSeg = true →
    exCore f (pre ++ (segs.map renderSeg).flatten)
      = segs.map (fun seg => jsTrimL seg.1.body) := by
  induction segs with
  | nil =>
    intro pre f _ hpre _
    cases f with
    | zero => rfl
    | succ f =>
      rw [List.map_nil, List.flatten_nil, List.append_nil]
      unfold exCore
      rw [findTT_noBT pre hpre]
      rfl
  | cons seg rest ih =>
    intro pre f hf hpre hwf
    cases f with
    | zero => simp at hf
    | succ f =>
      rw [List.all_cons, Bool.and_eq_true] at hwf
      obtain ⟨hwfs, hwfr⟩ := hwf
      unfold wfSeg at hwfs
      rw [Bool.and_eq_true, Bool.and_eq_true] at hwfs
      obtain ⟨⟨hlangB, hbodyB⟩, hgapB⟩ := hwfs
      have hlang : ∀ c ∈ seg.1.lang, isLowerAlpha c = true := by
        rw [List.all_eq_true] at hlangB
        exact fun c hc => hlangB c hc
      have hbody : '\x60' ∉ seg.1.body := by
        intro hm
        rw [List.all_eq_true] at hbodyB
        have := hbodyB _ hm
        simp at this
      have hgap : '\x60' ∉ seg.2 := by
        intro hm
        rw [List.all_eq_true] at hgapB
        have := hgapB _ hm
        simp at this
      rw [List.map_cons, List.flatten_cons, ← List.append_assoc]
      rw [show pre ++ renderSeg seg ++ (rest.map renderSeg).flatten
          = pre ++ (renderSeg seg ++ (rest.map renderSeg).flatten) from by
        rw [List.append_assoc]]
      rw [renderSeg_shape]
      unfold exCore
      rw [findTT_app pre _ hpre]
      dsimp only
      rw [dropLangTag_tagged _ _ hlang]
      rw [findTT_app _ _ hbody]
      dsimp only
      rw [ih seg.2 f (by simpa using hf) hgap hwfr]
      rw [List.map_cons]

/-- When the scanner finds no fence, the extractor loop yields nothing at any
fuel. -/
theorem exCore_none (f : Nat) (l : List Char) (h : findTripleTick l = none) :
    exCore f l = [] := by
  cases f with
  | zero => rfl
  | succ f =>
    unfold exCore
    rw [h]

/-- A rendered document is at least as long as its number of segments. -/
theorem renderDoc_len (intro : List Char) (segs : List (Fenced × List Char)) :
    segs.length ≤ (renderDoc intro segs).length := by
  unfold renderDoc
  rw [List.length_append]
  have h : segs.length ≤ ((segs.map renderSeg).flatten).length := by
    induction segs with
    | nil => simp
    | cons seg rest ih =>
      rw [List.map_cons, List.flatten_cons, List.length_append, List.length_cons]
      have h7 : 1 ≤ (renderSeg seg).length := by
        simp [renderSeg, renderFenced]
      omega
  omega

/-- C9: On any input that is a well-formed document with N fenced blocks
(N at least 1), extractCodeBlocks returns exactly the N fenced bodies, each
trimmed of surrounding whitespace; on any input containing no fence
delimiter at all it returns exactly one block: the whole trimmed input. -/
theorem c9_patch_extractor :
    (∀ (intro : List Char) (segs : List (Fenced × List Char)) (s : String),
      wfDoc intro segs = true → s.toList = renderDoc intro segs → segs ≠ [] →
      extractCodeBlocks s = segs.map (fun seg => String.mk (jsTrimL seg.1.body)) ∧
      (extractCodeBlocks s).length = segs.length) ∧
    (∀ s : String, hasSub s.toList ['\x60', '\x60', '\x60'] = false →
      extractCodeBlocks s = [jsTrim s]) := by
  constructor
  · intro intro segs s hwf hr hne
    unfold wfDoc at hwf
    rw [Bool.and_eq_true] at hwf
    obtain ⟨hintroB, hsegs⟩ := hwf
    have hintro : '\x60' ∉ intro := by
      intro hm
      rw [List.all_eq_true] at hintroB
      have := hintroB _ hm
      simp at this
    have hlen : segs.length ≤ (renderDoc intro segs).length := renderDoc_len intro segs
    unfold extractCodeBlocks
    rw [hr]
    unfold renderDoc
    unfold renderDoc at hlen
    rw [exCore_render segs intro _ hlen hintro hsegs]
    have hne2 : ((segs.map (fun seg => jsTrimL seg.1.body)).map String.mk).isEmpty = false := by
      cases segs with
      | nil => exact absurd rfl hne
      | cons a t => simp
    rw [hne2]
    constructor
    · simp [List.map_map]
    · simp
  · intro s hns
    have h0 : findTripleTick s.toList = none := findTT_of_noSub _ hns
    unfold extractCodeBlocks
    rw [exCore_none _ _ h0]
    simp

/-- C9 witness: a document with two fenced blocks (one with a language tag)
and a fence-free text instantiate both halves of the claim. -/
theorem c9_patch_extractor_witness :
    extractCodeBlocks "Intro: ```js\nx = 1;\n``` and ```\n y ```"
      = [String.mk (jsTrimL ("x = 1;\n".toList)), String.mk (jsTrimL (" y ".toList))] ∧
    (extractCodeBlocks "Intro: ```js\nx = 1;\n``` and ```\n y ```").length = 2 ∧
    extractCodeBlocks "no fences here" = [jsTrim "no fences here"] := by
  have h := c9_patch_extractor.1 ("Intro: ".toList)
    [(⟨['j', 's'], "x = 1;\n".toList⟩, " and ".toList), (⟨[], " y ".toList⟩, [])]
    "Intro: ```js\nx = 1;\n``` and ```\n y ```" (by decide) (by decide) (by simp)
  exact ⟨h.1, h.2, c9_patch_extractor.2 "no fences here" (by decide)⟩

/-- The related-files loop is the rendering of the declaratively selected
file list, for any starting budget state and accumulated context. -/
theorem relLoop_spec (maxTokens : Nat) (files : List CtxFile) :
    ∀ (tokens : Nat) (context : String),
    relLoop maxTokens files tokens context
      = (context ++ joinSections (relSelect maxTokens files tokens).1,
         (relSelect maxTokens files tokens).2) := by
  induction files with
  | nil =>
    intro tokens context
    simp [relLoop, relSelect, joinSections]
  | cons file rest ih =>
    intro tokens context
    unfold relLoop relSelect
    by_cases h1 : tokens ≥ maxTokens
    · rw [if_pos h1, if_pos h1]
      simp [joinSections]
    · rw [if_neg h1, if_neg h1]
      by_cases h2 : tokens + estimateTokens (getFileContent file.contentLines 1 50) ≤ maxTokens
      · rw [if_pos h2, if_pos h2]
        rw [ih]
        simp [joinSections, String.append_assoc]
      · rw [if_neg h2, if_neg h2]
        exact ih tokens context

/-- C2: Amended: the assembled context equals: the target window (or
not-found placeholder) section included UNCONDITIONALLY, then exactly those
related-file sections the loop selects (the loop stops for good only once
the running estimate has reached the budget; a file whose estimate alone
would overflow is skipped but the scan continues with later files), then
the directory-tree section only if the final running estimate plus its
estimate is at most the budget; no section is ever partially included. -/
theorem c2_budget_discipline (e : Bool) (b : String) (l : List String) (n : Nat)
    (rf : List CtxFile) (st : String) (mt : Nat) :
    buildContext e b l n rf st mt = buildContextSpec e b l n rf st mt ∧
    ∃ rest, buildContext e b l n rf st mt = (windowSection e b l n).1 ++ rest := by
  have heq : buildContext e b l n rf st mt = buildContextSpec e b l n rf st mt := by
    unfold buildContext buildContextSpec
    cases e with
    | false =>
      by_cases hc : (windowSection false b l n).2 + estimateTokens st ≤ mt <;>
        simp [hc, joinSections, String.append_assoc]
    | true =>
      dsimp only
      rw [if_pos rfl, if_pos rfl]
      rw [relLoop_spec]
      by_cases hc : (relSelect mt rf (windowSection true b l n).2).2
          + estimateTokens st ≤ mt <;>
        simp [hc, String.append_assoc]
  refine ⟨heq, ?_⟩
  rw [heq]
  unfold buildContextSpec
  dsimp only
  exact ⟨_, by rw [String.append_assoc]⟩

/-- C2 counterexample: the target window section is included even when its
estimate alone exceeds the budget, and a related file that would overflow
the budget is skipped while a later, smaller file is still included — both
refuting the claimed include-only-if-within-budget and stop-at-first-excess
discipline. -/
theorem c2_counterexample :
    estimateTokens (getFileContent ["0123456789ab"] 1 11) > 1 ∧
    hasSub (buildContext true "a.js" ["0123456789ab"] 1 [] "" 1).toList
      ("\n=== Error File (a.js) ===\n1: 0123456789ab\n").toList = true ∧
    1 + estimateTokens (getFileContent ["0123456789abcdef"] 1 50) > 3 ∧
    hasSub (buildContext true "e.js" [""] 1
        [⟨"a.js", ["0123456789abcdef"]⟩, ⟨"b.js", [""]⟩] "" 3).toList
      ("=== Related File (b.js) ===").toList = true ∧
    hasSub (buildContext true "e.js" [""] 1
        [⟨"a.js", ["0123456789abcdef"]⟩, ⟨"b.js", [""]⟩] "" 3).toList
      ("=== Related File (a.js) ===").toList = false := by
  refine ⟨by decide, by decide, by decide, by decide, by decide⟩

/-- The file left by the back-fill loop is truthy whenever some frame
carries both a truthy filename and a truthy line number. -/
theorem psFile1_truthy (ev : SentryEvent)
    (h : ∃ fr ∈ framesList ev, (truthyS fr.filename && truthyN fr.lineno) = true) :
    truthyS (psFile1 ev) = true := by
  unfold psFile1 psBackfillFrame
  by_cases hc : (truthyS (psFile0 ev) && truthyN (psLine0 ev)) = true
  · simp only [hc, Bool.not_true, Bool.false_eq_true, if_false]
    rw [Bool.and_eq_true] at hc
    exact hc.1
  · have hcf : (truthyS (psFile0 ev) && truthyN (psLine0 ev)) = false :=
      Bool.eq_false_iff.mpr hc
    simp only [hcf, Bool.not_false, if_true]
    obtain ⟨fr, hmem, hpred⟩ := h
    have hsome : ((framesList ev).find?
        (fun fr => truthyS fr.filename && truthyN fr.lineno)).isSome = true := by
      rw [List.find?_isSome]
      exact ⟨fr, hmem, hpred⟩
    obtain ⟨fr2, hfind⟩ := Option.isSome_iff_exists.mp hsome
    have hpred2 := List.find?_some hfind
    rw [Bool.and_eq_true] at hpred2
    rw [hfind]
    unfold framePathOf jsOrS
    dsimp only
    rw [if_pos hpred2.1]
    exact hpred2.1

/-- Once the file is truthy after the back-fill, none of the later guarded
fallbacks changes it. -/
theorem psFileFinal_keep (ev : SentryEvent) (h : truthyS (psFile1 ev) = true) :
    psFileFinal ev = psFile1 ev := by
  unfold psFileFinal
  simp [h]

/-- C7: For every payload whose stack-frame list has at least one frame
carrying both a (truthy) filename and a (truthy) line number, the locator
returns a non-null file; the locator is a total function (it never throws),
and on the fully absent payload every location field is null. -/
theorem c7_event_locator :
    (∀ ev : SentryEvent,
      (∃ fr ∈ framesList ev, (truthyS fr.filename && truthyN fr.lineno) = true) →
      (parseSentryDetails ev).file ≠ none) ∧
    ((parseSentryDetails emptyEvent).file = none ∧
     (parseSentryDetails emptyEvent).line = none ∧
     (parseSentryDetails emptyEvent).col = none ∧
     (parseSentryDetails emptyEvent).error = none ∧
     (parseSentryDetails emptyEvent).errorType = none ∧
     (parseSentryDetails emptyEvent).category = none) := by
  constructor
  · intro ev h
    have h1 := psFile1_truthy ev h
    have h2 : psFileFinal ev = psFile1 ev := psFileFinal_keep ev h1
    show psFileFinal ev ≠ none
    rw [h2]
    cases hf : psFile1 ev with
    | none => rw [hf] at h1; simp [truthyS] at h1
    | some s => simp
  · refine ⟨by decide, by decide, by decide, by decide, by decide, by decide⟩

/-- C7 witness: a payload with one in-app frame carrying filename and line
yields a non-null file. -/
theorem c7_event_locator_witness :
    (parseSentryDetails
      ⟨some ⟨some "TypeError", some "x is undefined",
        some [⟨some "src/app.js", none, none, some 42, some 7, some "doWork",
          none, some "x = undefined.prop", none, some true⟩]⟩,
       none, none, none, none, none, none, none, none, none, none, none, none,
       none⟩).file ≠ none :=
  c7_event_locator.1 _
    ⟨⟨some "src/app.js", none, none, some 42, some 7, some "doWork",
      none, some "x = undefined.prop", none, some true⟩, by decide, by decide⟩
